import Mathlib

/-!
Shallow embedding of the `rkyv_util` crate (files `src/owned.rs`, `src/mmap.rs`,
`src/std/mod.rs`).

The crate pairs an owning byte container (the `StableBytes` / `StableBytesMut`
capability traits) with a zero-copy typed view (`OwnedArchive<T, C>`): the
container's bytes are validated once at construction (`rkyv::access`) and all
later accesses reinterpret the bytes directly (`rkyv::access_unchecked`,
`rkyv::access_unchecked_mut`) without re-validation.

Bytes are modelled as `List Nat` (each entry a byte value).  The external rkyv
codec (validator, reinterpretation primitive, serializer) is not part of this
repository; it is modelled abstractly as a `Codec` structure and, for the
concrete record scenario of the specification, by an explicit stub codec.

To make "the validator runs exactly once at construction and never again"
provable, each operation also has a traced variant that records, in order, the
calls it makes to the container capabilities and to the validator, exactly as
the Rust bodies do.
-/

/-- Calls observable on the container capabilities and the external codec:
a call to `StableBytes::bytes`, to `StableBytesMut::bytes_mut`, to the
validator (`rkyv::access`'s checking pass), or to the container's `clone`. -/
inductive Event where
  | bytesCall : Event
  | bytesMutCall : Event
  | checkCall : Event
  | cloneCall : Event
deriving DecidableEq, Repr

/-- Model of the external rkyv codec for an archived type `A` with error type
`Err`: `check` is `rkyv::access` (validating pass over the bytes, returning the
archived view or a validation error) and `read` is `rkyv::access_unchecked`
(direct reinterpretation of the bytes, no validation). -/
structure Codec (A : Type) (Err : Type) where
  check : List Nat → Except Err A
  read : List Nat → A

/-- The `StableBytes` capability trait of `src/owned.rs`: a byte container
exposing a read-only view of its buffer.  Its safety contract (the returned
bytes are stable across calls unless mutated through `StableBytesMut`) is what
makes the modelling of `bytes` as a pure function faithful. -/
class StableBytes (C : Type) where
  bytes : C → List Nat

/-- The `StableBytesMut` capability trait of `src/owned.rs`: extends
`StableBytes` with a mutable view of the identical buffer.  A Rust caller
mutates by writing through the `&mut [u8]` returned by `bytes_mut`; in the
embedding this is an update function applied to the buffer.  The law
`bytes_update` is the trait's contract that `bytes_mut` exposes the very same
buffer that `bytes` reads. -/
class StableBytesMut (C : Type) extends StableBytes C where
  bytesMutUpdate : C → (List Nat → List Nat) → C
  bytes_update : ∀ (c : C) (f : List Nat → List Nat),
    StableBytes.bytes (bytesMutUpdate c f) = f (StableBytes.bytes c)

/-- The `OwnedArchive<T, C>` wrapper of `src/owned.rs`: an owned container `C`
plus a phantom marker of the archived type (here the archived type `A` itself
is the parameter, matching `T::Archived`). -/
structure OwnedArchive (A : Type) (C : Type) where
  container : C
deriving DecidableEq, Repr

/-- `OwnedArchive::new` (`src/owned.rs` lines 53-68): runs
`rkyv::access::<T::Archived, E>(container.bytes())?` and on success stores the
container; on failure the error propagates and the container is dropped. -/
def OwnedArchive.new {A C Err : Type} [StableBytes C] (k : Codec A Err) (c : C) :
    Except Err (OwnedArchive A C) :=
  match k.check (StableBytes.bytes c) with
  | Except.error e => Except.error e
  | Except.ok _ => Except.ok ⟨c⟩

/-- The `Deref` impl (`src/owned.rs` lines 113-125):
`rkyv::access_unchecked(self.container.bytes())` — direct reinterpretation of
the container's bytes, no validation. -/
def OwnedArchive.deref {A C Err : Type} [StableBytes C] (k : Codec A Err)
    (oa : OwnedArchive A C) : A :=
  k.read (StableBytes.bytes oa.container)

/-- `OwnedArchive::get_mut` (`src/owned.rs` lines 93-110) followed by a field
write through the returned `Pin<&mut T::Archived>`: the pinned mutable view is
`rkyv::access_unchecked_mut(self.container.bytes_mut())`, so a write through it
is a byte-level update `f` applied in place to the container's buffer. -/
def OwnedArchive.getMutWrite {A C : Type} [StableBytesMut C]
    (oa : OwnedArchive A C) (f : List Nat → List Nat) : OwnedArchive A C :=
  ⟨StableBytesMut.bytesMutUpdate oa.container f⟩

/-- The `Clone` impl (`src/owned.rs` lines 127-134): clones the container
(`self.container.clone()`), whose semantics `dup` the container type supplies,
and copies the phantom marker. -/
def OwnedArchive.cloneWith {A C : Type} (dup : C → C) (oa : OwnedArchive A C) :
    OwnedArchive A C :=
  ⟨dup oa.container⟩

/-- Traced `OwnedArchive::new`: the body calls `container.bytes()` once and the
validator once, in that order, whether validation succeeds or fails. -/
def OwnedArchive.newTraced {A C Err : Type} [StableBytes C] (k : Codec A Err)
    (c : C) : Except Err (OwnedArchive A C) × List Event :=
  (OwnedArchive.new k c, [Event.bytesCall, Event.checkCall])

/-- Traced `Deref`: the body calls `container.bytes()` once and the validator
never. -/
def OwnedArchive.derefTraced {A C Err : Type} [StableBytes C] (k : Codec A Err)
    (oa : OwnedArchive A C) : A × List Event :=
  (OwnedArchive.deref k oa, [Event.bytesCall])

/-- A sequence of `n` dereferences of the same wrapper, with the concatenated
trace of their capability calls. -/
def OwnedArchive.readsTraced {A C Err : Type} [StableBytes C] (k : Codec A Err)
    (oa : OwnedArchive A C) : Nat → List A × List Event
  | 0 => ([], [])
  | n + 1 =>
    let p := OwnedArchive.derefTraced k oa
    let q := OwnedArchive.readsTraced k oa n
    (p.1 :: q.1, p.2 ++ q.2)

/-- Traced `get_mut` plus write: the body calls `container.bytes_mut()` once
and the validator never. -/
def OwnedArchive.getMutWriteTraced {A C : Type} [StableBytesMut C]
    (oa : OwnedArchive A C) (f : List Nat → List Nat) :
    OwnedArchive A C × List Event :=
  (OwnedArchive.getMutWrite oa f, [Event.bytesMutCall])

/-- Traced `Clone`: the body calls the container's `clone` once and neither
byte accessor nor the validator. -/
def OwnedArchive.cloneTraced {A C : Type} (dup : C → C)
    (oa : OwnedArchive A C) : OwnedArchive A C × List Event :=
  (OwnedArchive.cloneWith dup oa, [Event.cloneCall])

/-- The `StableBytes` impl for `Vec<u8>` (`src/owned.rs` lines 314-318): the
container is the byte buffer itself. -/
instance : StableBytes (List Nat) where
  bytes := fun c => c

/-- The `StableBytesMut` impl for `Vec<u8>` (`src/owned.rs` lines 308-312):
`bytes_mut` exposes the buffer itself mutably. -/
instance : StableBytesMut (List Nat) where
  bytesMutUpdate := fun c f => f c
  bytes_update := fun _ _ => rfl

/-- The `memmap2::Mmap` type consumed by `src/mmap.rs`: an externally supplied
read-only mapped byte region (the mapping mechanics are the external
collaborator's; only its byte content matters here). -/
structure Mmap where
  data : List Nat
deriving DecidableEq, Repr

/-- The `memmap2::MmapMut` type consumed by `src/mmap.rs`: a writable mapped
byte region. -/
structure MmapMut where
  data : List Nat
deriving DecidableEq, Repr

/-- The private `ContractMmap` newtype of `src/mmap.rs` (lines 63-74): wraps an
`Mmap` so that only the dedicated unsafe entry point, not the generic `new`,
can build an `OwnedArchive` over a raw mapping. -/
structure ContractMmap where
  inner : Mmap
deriving DecidableEq, Repr

/-- The private `ContractMmapMut` newtype of `src/mmap.rs` (lines 76-93). -/
structure ContractMmapMut where
  inner : MmapMut
deriving DecidableEq, Repr

/-- The `StableBytes` impl for `ContractMmap` (`src/mmap.rs` lines 95-99). -/
instance : StableBytes ContractMmap where
  bytes := fun c => c.inner.data

/-- The `StableBytes` impl for `ContractMmapMut` (`src/mmap.rs` lines
101-105). -/
instance : StableBytes ContractMmapMut where
  bytes := fun c => c.inner.data

/-- The `StableBytesMut` impl for `ContractMmapMut` (`src/mmap.rs` lines
107-111). -/
instance : StableBytesMut ContractMmapMut where
  bytesMutUpdate := fun c f => ⟨⟨f c.inner.data⟩⟩
  bytes_update := fun _ _ => rfl

/-- `OwnedArchive::from_mmap` (`src/mmap.rs` lines 28-35): wraps the mapping in
the private `ContractMmap` newtype and delegates to `new`. -/
def OwnedArchive.fromMmap {A Err : Type} (k : Codec A Err) (m : Mmap) :
    Except Err (OwnedArchive A ContractMmap) :=
  OwnedArchive.new k (ContractMmap.mk m)

/-- `OwnedArchive::from_mmap_mut` (`src/mmap.rs` lines 53-60): wraps the
mapping in the private `ContractMmapMut` newtype and delegates to `new`. -/
def OwnedArchive.fromMmapMut {A Err : Type} (k : Codec A Err) (m : MmapMut) :
    Except Err (OwnedArchive A ContractMmapMut) :=
  OwnedArchive.new k (ContractMmapMut.mk m)

/-- Modelled from the spec: the record of the specification's example scenario
(section 8) — an 8-bit field `hello` and a 64-bit field `world` — matching the
`ArchiveStub` test type; the archived form of this repository's external codec
(rkyv) holds the same field values, so the archived type is modelled by the
record itself. -/
structure ArchiveStub where
  hello : Nat
  world : Nat
deriving DecidableEq, Repr

/-- Errors of the modelled validator: the single validation-failure class the
spec gives the constructor (layout inconsistency in the supplied bytes). -/
inductive StubErr where
  | invalidLayout : StubErr
deriving DecidableEq, Repr

/-- Little-endian byte decomposition of a 64-bit word, 8 bytes. -/
def le64 (w : Nat) : List Nat :=
  [w % 256, w / 256 % 256, w / 65536 % 256, w / 16777216 % 256,
   w / 4294967296 % 256, w / 1099511627776 % 256,
   w / 281474976710656 % 256, w / 72057594037927936 % 256]

/-- Little-endian read of a 64-bit word at offset `off` of a byte buffer,
in Horner form. -/
def le64read (bs : List Nat) (off : Nat) : Nat :=
  bs.getD off 0 + 256 * (bs.getD (off + 1) 0 + 256 * (bs.getD (off + 2) 0 +
    256 * (bs.getD (off + 3) 0 + 256 * (bs.getD (off + 4) 0 +
    256 * (bs.getD (off + 5) 0 + 256 * (bs.getD (off + 6) 0 +
    256 * bs.getD (off + 7) 0))))))

/-- Modelled from the spec: the external codec's serializer for the example
record — `hello` as one byte, padding to an aligned offset, `world` as eight
little-endian bytes; a fixed 16-byte archived layout (the precise layout is the
external codec's opaque contract; any fixed layout with these two fields is
faithful to the spec). -/
def serializeStub (v : ArchiveStub) : List Nat :=
  v.hello % 256 :: 0 :: 0 :: 0 :: 0 :: 0 :: 0 :: 0 :: le64 v.world

/-- Modelled from the spec: the external codec's reinterpretation primitive
(`rkyv::access_unchecked`) for the example record — reads the fields straight
out of the buffer with no validation. -/
def readStub (bs : List Nat) : ArchiveStub :=
  ⟨bs.getD 0 0, le64read bs 8⟩

/-- Modelled from the spec: the external codec's validating pass
(`rkyv::access`) for the example record — checks the buffer has exactly the
archived layout's size and that every entry is a byte, returning the archived
view on success and a validation error otherwise (the spec's rejection
scenario: a truncated buffer must fail). -/
def checkStub (bs : List Nat) : Except StubErr ArchiveStub :=
  if bs.length = 16 ∧ ∀ b ∈ bs, b < 256 then Except.ok (readStub bs)
  else Except.error StubErr.invalidLayout

/-- The modelled codec for the example record, packaging the validator and the
reinterpretation primitive. -/
def stubCodec : Codec ArchiveStub StubErr :=
  ⟨checkStub, readStub⟩

/-- A heap of allocated byte buffers; an address is an index into it.  This
store model makes allocation identity observable, which is what distinguishes
cloning an ownership handle (the buffer is shared) from cloning an owned
buffer (the bytes are copied into a fresh allocation). -/
structure Store where
  bufs : List (List Nat)
deriving DecidableEq, Repr

/-- Reads the buffer at an address. -/
def Store.readBuf (s : Store) (a : Nat) : List Nat :=
  s.bufs.getD a []

/-- Allocates a fresh buffer, returning the new store and the fresh address. -/
def Store.alloc (s : Store) (b : List Nat) : Store × Nat :=
  (⟨s.bufs ++ [b]⟩, s.bufs.length)

/-- A `Vec<u8>` as an owning handle to a heap allocation. -/
structure VecU8 where
  addr : Nat
deriving DecidableEq, Repr

/-- A reference-counted byte slice (`Arc<[u8]>` / `Rc<[u8]>` of
`src/std/mod.rs`) as a shared handle to a heap allocation. -/
structure RcBytes where
  addr : Nat
deriving DecidableEq, Repr

/-- Rust's `Clone` for `Vec<u8>`: allocates a fresh buffer and copies the
contents into it. -/
def VecU8.cloneOp (s : Store) (v : VecU8) : Store × VecU8 :=
  let p := s.alloc (s.readBuf v.addr)
  (p.1, ⟨p.2⟩)

/-- Rust's `Clone` for `Arc<[u8]>` / `Rc<[u8]>`: duplicates the handle (bumps a
reference count); the allocation is shared and the store's buffers are
untouched. -/
def RcBytes.cloneOp (s : Store) (r : RcBytes) : Store × RcBytes :=
  (s, ⟨r.addr⟩)

/-- The `Clone` impl of `OwnedArchive` over the store model: clones the
container with the container type's own clone operation. -/
def OwnedArchive.cloneStore {A C : Type} (cloneC : Store → C → Store × C)
    (s : Store) (oa : OwnedArchive A C) : Store × OwnedArchive A C :=
  let p := cloneC s oa.container
  (p.1, ⟨p.2⟩)

/-- Modelled from the spec: the byte-level action of assigning the archived
`hello` field (a one-byte scalar at offset 0 of the modelled layout) through
the pinned mutable view returned by `get_mut`. -/
def writeHelloByte (x : Nat) (bs : List Nat) : List Nat :=
  bs.set 0 x

/-- Rust's `Default` for the example record type (all fields zero), needed
because the derived `Default` on `OwnedArchive<T, C>` bounds both type
parameters by `Default`. -/
instance : Inhabited ArchiveStub where
  default := ⟨0, 0⟩

/-- The derived `Default` impl on `OwnedArchive` (`src/owned.rs` line 42,
`#[derive(Default)]`): constructs the wrapper from the container type's
default value (`Vec::default()` is the empty buffer) with no validation
pass. -/
def OwnedArchive.defaultValue (A C : Type) [Inhabited A] [Inhabited C] :
    OwnedArchive A C :=
  ⟨default⟩

/-- Traced derived `Default`: its body builds the container's default value
and calls neither byte accessor nor the validator. -/
def OwnedArchive.defaultTraced (A C : Type) [Inhabited A] [Inhabited C] :
    OwnedArchive A C × List Event :=
  (OwnedArchive.defaultValue A C, [])

/-- Helper: destructs a successful `new` — the returned wrapper stores exactly
the supplied container and the validator accepted its bytes. -/
theorem new_ok_elim {A C Err : Type} [StableBytes C] {k : Codec A Err} {c : C}
    {oa : OwnedArchive A C} (hnew : OwnedArchive.new k c = Except.ok oa) :
    oa = ⟨c⟩ ∧ ∃ a, k.check (StableBytes.bytes c) = Except.ok a := by
  unfold OwnedArchive.new at hnew
  revert hnew
  cases hk : k.check (StableBytes.bytes c) with
  | error e => intro hnew; exact absurd hnew (by simp)
  | ok a =>
    intro hnew
    refine ⟨?_, a, rfl⟩
    cases hnew
    rfl

/-- Helper: the modelled serialized layout has exactly 16 entries. -/
theorem serializeStub_length (v : ArchiveStub) :
    (serializeStub v).length = 16 := by
  simp [serializeStub, le64]

/-- Helper: every entry of the modelled serialized layout is a byte value. -/
theorem serializeStub_bytes_lt (v : ArchiveStub) :
    ∀ b ∈ serializeStub v, b < 256 := by
  intro b hb
  simp [serializeStub, le64] at hb
  rcases hb with h | h | h | h | h | h | h | h | h | h <;> subst h <;> omega

/-- Helper: reading the modelled layout back recovers the record. -/
theorem readStub_serializeStub (h w : Nat) (hh : h < 256) (hw : w < 2 ^ 64) :
    readStub (serializeStub ⟨h, w⟩) = ⟨h, w⟩ := by
  simp [readStub, serializeStub, le64, le64read, List.getD]
  constructor
  · omega
  · omega

/-- Helper: the modelled validator accepts the modelled serializer's output. -/
theorem checkStub_serializeStub (h w : Nat) (hh : h < 256) (hw : w < 2 ^ 64) :
    checkStub (serializeStub ⟨h, w⟩) = Except.ok ⟨h, w⟩ := by
  unfold checkStub
  rw [if_pos ⟨serializeStub_length ⟨h, w⟩, serializeStub_bytes_lt ⟨h, w⟩⟩]
  rw [readStub_serializeStub h w hh hw]

/-- Helper: constructing an `OwnedArchive` from the modelled serializer's
output succeeds and stores that buffer. -/
theorem new_stub_ok (h w : Nat) (hh : h < 256) (hw : w < 2 ^ 64) :
    OwnedArchive.new stubCodec (serializeStub ⟨h, w⟩) =
      Except.ok ⟨serializeStub ⟨h, w⟩⟩ := by
  unfold OwnedArchive.new
  have hc : stubCodec.check (StableBytes.bytes (serializeStub ⟨h, w⟩)) =
      Except.ok ⟨h, w⟩ := checkStub_serializeStub h w hh hw
  rw [hc]

/-- C1: the code contradicts the claimed invariant — the derived `Default`
impl on `OwnedArchive` is a safe construction path that performs zero
validator calls, and the default wrapper over a `Vec<u8>` container holds the
empty buffer, whose bytes the validator rejects; so a wrapper exists whose
stored bytes were never checked and do not decode to a valid archived
instance, contrary to the claim and to the construction-time check the
crate's own safety comments rely on. -/
theorem default_owned_archive_violates_invariant :
    (OwnedArchive.defaultValue ArchiveStub (List Nat)).container = [] ∧
    stubCodec.check (StableBytes.bytes
      (OwnedArchive.defaultValue ArchiveStub (List Nat)).container) =
      Except.error StubErr.invalidLayout ∧
    (OwnedArchive.defaultTraced ArchiveStub
      (List Nat)).2.count Event.checkCall = 0 := by
  exact ⟨rfl, rfl, rfl⟩

/-- Supporting fact: every `OwnedArchive` constructed through `new` stores a
container whose bytes the validator accepts; the traced bodies show the
validation pass runs exactly once, during construction, and is never
re-invoked by a dereference, a `get_mut` write, or a clone. -/
theorem owned_archive_validated_once {A C Err : Type} [StableBytesMut C]
    (k : Codec A Err) (c : C) (oa : OwnedArchive A C)
    (f : List Nat → List Nat) (dup : C → C)
    (hnew : OwnedArchive.new k c = Except.ok oa) :
    (∃ a, k.check (StableBytes.bytes oa.container) = Except.ok a) ∧
    (OwnedArchive.newTraced k c).2.count Event.checkCall = 1 ∧
    (OwnedArchive.derefTraced k oa).2.count Event.checkCall = 0 ∧
    (OwnedArchive.getMutWriteTraced oa f).2.count Event.checkCall = 0 ∧
    (OwnedArchive.cloneTraced dup oa).2.count Event.checkCall = 0 := by
  obtain ⟨rfl, a, ha⟩ := new_ok_elim hnew
  exact ⟨⟨a, ha⟩, rfl, rfl, rfl, rfl⟩

/-- Concrete instance of the supporting fact at the specification's example
record, serialized and wrapped over a `Vec<u8>` container. -/
theorem owned_archive_validated_once_witness :
    (OwnedArchive.newTraced stubCodec
      (serializeStub ⟨4, 5⟩)).2.count Event.checkCall = 1 ∧
    (OwnedArchive.derefTraced stubCodec
      (⟨serializeStub ⟨4, 5⟩⟩ :
        OwnedArchive ArchiveStub (List Nat))).2.count Event.checkCall = 0 := by
  have h := owned_archive_validated_once stubCodec (serializeStub ⟨4, 5⟩)
    ⟨serializeStub ⟨4, 5⟩⟩ id id (by rfl)
  exact ⟨h.2.1, h.2.2.1⟩

/-- C2: `new` succeeds, returning a wrapper that owns exactly the supplied
container, precisely when the validation pass over the container's bytes
succeeds; it returns the validation error precisely when that pass fails; by
exhaustiveness of `Except` there is no other outcome. -/
theorem new_result_characterization {A C Err : Type} [StableBytes C]
    (k : Codec A Err) (c : C) :
    (∀ oa : OwnedArchive A C, OwnedArchive.new k c = Except.ok oa ↔
      ((∃ a, k.check (StableBytes.bytes c) = Except.ok a) ∧ oa = ⟨c⟩)) ∧
    (∀ e : Err, OwnedArchive.new k c = Except.error e ↔
      k.check (StableBytes.bytes c) = Except.error e) := by
  unfold OwnedArchive.new
  cases hk : k.check (StableBytes.bytes c) with
  | error e =>
    constructor
    · intro oa
      simp
    · intro e2
      simp
  | ok a =>
    constructor
    · intro oa
      simp [eq_comm]
    · intro e2
      simp

/-- Witness for C2: a truncated buffer is rejected, and the rejection is
exactly the validator's rejection. -/
theorem new_result_characterization_witness :
    OwnedArchive.new stubCodec ([1, 2, 3] : List Nat) =
        Except.error StubErr.invalidLayout ↔
      stubCodec.check (StableBytes.bytes ([1, 2, 3] : List Nat)) =
        Except.error StubErr.invalidLayout :=
  (new_result_characterization stubCodec ([1, 2, 3] : List Nat)).2
    StubErr.invalidLayout

/-- C3: the `Deref` body is exactly one call to the container's byte accessor
followed by direct reinterpretation, and any number of dereferences of a
constructed wrapper produces only byte-accessor calls — the validator is never
re-invoked on the read path. -/
theorem deref_never_revalidates {A C Err : Type} [StableBytes C]
    (k : Codec A Err) (oa : OwnedArchive A C) :
    OwnedArchive.derefTraced k oa =
      (k.read (StableBytes.bytes oa.container), [Event.bytesCall]) ∧
    ∀ n : Nat, OwnedArchive.readsTraced k oa n =
      (List.replicate n (OwnedArchive.deref k oa),
        List.replicate n Event.bytesCall) ∧
      (OwnedArchive.readsTraced k oa n).2.count Event.checkCall = 0 := by
  refine ⟨rfl, ?_⟩
  intro n
  induction n with
  | zero => exact ⟨rfl, rfl⟩
  | succ m ih =>
    refine ⟨?_, ?_⟩
    · simp only [OwnedArchive.readsTraced, ih.1, OwnedArchive.derefTraced,
        List.replicate_succ]
      rfl
    · simp only [OwnedArchive.readsTraced, ih.1, OwnedArchive.derefTraced]
      simp [List.count_replicate]

/-- Witness for C3: three dereferences of the example wrapper trace three
byte-accessor calls and zero validator calls. -/
theorem deref_never_revalidates_witness :
    OwnedArchive.readsTraced stubCodec
        (⟨serializeStub ⟨4, 5⟩⟩ : OwnedArchive ArchiveStub (List Nat)) 3 =
      (List.replicate 3 (OwnedArchive.deref stubCodec
        (⟨serializeStub ⟨4, 5⟩⟩ : OwnedArchive ArchiveStub (List Nat))),
        List.replicate 3 Event.bytesCall) ∧
    (OwnedArchive.readsTraced stubCodec
      (⟨serializeStub ⟨4, 5⟩⟩ :
        OwnedArchive ArchiveStub (List Nat)) 3).2.count Event.checkCall = 0 :=
  (deref_never_revalidates stubCodec ⟨serializeStub ⟨4, 5⟩⟩).2 3

/-- C4: serializing a record, constructing the wrapper from the resulting
bytes, and reading through the dereferenced view yields the original record
(fields equal under the record's equality). -/
theorem roundtrip_through_owned_archive (h w : Nat) (hh : h < 256)
    (hw : w < 2 ^ 64) :
    OwnedArchive.new stubCodec (serializeStub ⟨h, w⟩) =
      Except.ok ⟨serializeStub ⟨h, w⟩⟩ ∧
    OwnedArchive.deref stubCodec
      (⟨serializeStub ⟨h, w⟩⟩ : OwnedArchive ArchiveStub (List Nat)) =
      ⟨h, w⟩ := by
  refine ⟨new_stub_ok h w hh hw, ?_⟩
  show readStub (serializeStub ⟨h, w⟩) = ⟨h, w⟩
  exact readStub_serializeStub h w hh hw

/-- Witness for C4 at the example record with `hello = 4`, `world = 5`. -/
theorem roundtrip_through_owned_archive_witness :
    OwnedArchive.new stubCodec (serializeStub ⟨4, 5⟩) =
      Except.ok ⟨serializeStub ⟨4, 5⟩⟩ ∧
    OwnedArchive.deref stubCodec
      (⟨serializeStub ⟨4, 5⟩⟩ : OwnedArchive ArchiveStub (List Nat)) =
      ⟨4, 5⟩ :=
  roundtrip_through_owned_archive 4 5 (by decide) (by decide)

/-- C5: after constructing the wrapper over the serialized record, writing the
`hello` scalar through the pinned mutable accessor makes the read-only view
report the new value while `world` reads unchanged. -/
theorem mutation_visible_through_read (h h2 w : Nat) (hh : h < 256)
    (_hh2 : h2 < 256) (hw : w < 2 ^ 64) :
    OwnedArchive.new stubCodec (serializeStub ⟨h, w⟩) =
      Except.ok ⟨serializeStub ⟨h, w⟩⟩ ∧
    OwnedArchive.deref stubCodec
      (⟨serializeStub ⟨h, w⟩⟩ : OwnedArchive ArchiveStub (List Nat)) =
      ⟨h, w⟩ ∧
    OwnedArchive.deref stubCodec
      (OwnedArchive.getMutWrite
        (⟨serializeStub ⟨h, w⟩⟩ : OwnedArchive ArchiveStub (List Nat))
        (writeHelloByte h2)) = ⟨h2, w⟩ := by
  refine ⟨new_stub_ok h w hh hw, readStub_serializeStub h w hh hw, ?_⟩
  show readStub (writeHelloByte h2 (serializeStub ⟨h, w⟩)) = ⟨h2, w⟩
  simp [writeHelloByte, readStub, serializeStub, le64, le64read, List.getD]
  omega

/-- Witness for C5: mutate `hello` from 4 to 3; the read view reports
`hello = 3` and `world = 5`. -/
theorem mutation_visible_through_read_witness :
    OwnedArchive.new stubCodec (serializeStub ⟨4, 5⟩) =
      Except.ok ⟨serializeStub ⟨4, 5⟩⟩ ∧
    OwnedArchive.deref stubCodec
      (⟨serializeStub ⟨4, 5⟩⟩ : OwnedArchive ArchiveStub (List Nat)) =
      ⟨4, 5⟩ ∧
    OwnedArchive.deref stubCodec
      (OwnedArchive.getMutWrite
        (⟨serializeStub ⟨4, 5⟩⟩ : OwnedArchive ArchiveStub (List Nat))
        (writeHelloByte 3)) = ⟨3, 5⟩ :=
  mutation_visible_through_read 4 3 5 (by decide) (by decide) (by decide)

/-- C6: the `get_mut` path requires the mutable capability, its body is a
single `bytes_mut` call (no validator call), and the value subsequently read
back is the direct reinterpretation of the mutable byte view with the write
applied in place. -/
theorem get_mut_reinterprets_in_place {A C Err : Type} [StableBytesMut C]
    (k : Codec A Err) (oa : OwnedArchive A C) (f : List Nat → List Nat) :
    OwnedArchive.getMutWriteTraced oa f =
      (⟨StableBytesMut.bytesMutUpdate oa.container f⟩, [Event.bytesMutCall]) ∧
    (OwnedArchive.getMutWriteTraced oa f).2.count Event.checkCall = 0 ∧
    OwnedArchive.deref k (OwnedArchive.getMutWrite oa f) =
      k.read (f (StableBytes.bytes oa.container)) := by
  refine ⟨rfl, rfl, ?_⟩
  simp [OwnedArchive.deref, OwnedArchive.getMutWrite,
    StableBytesMut.bytes_update]

/-- Witness for C6 at the example wrapper and the `hello` write. -/
theorem get_mut_reinterprets_in_place_witness :
    OwnedArchive.deref stubCodec
        (OwnedArchive.getMutWrite
          (⟨serializeStub ⟨4, 5⟩⟩ : OwnedArchive ArchiveStub (List Nat))
          (writeHelloByte 3)) =
      stubCodec.read
        (writeHelloByte 3 (StableBytes.bytes (serializeStub ⟨4, 5⟩))) :=
  (get_mut_reinterprets_in_place stubCodec ⟨serializeStub ⟨4, 5⟩⟩
    (writeHelloByte 3)).2.2

/-- Counterexample to C7 as stated: over a `Vec<u8>` container (which is
`Clone`, so the `Clone` impl of `OwnedArchive` applies), cloning does not
duplicate an ownership handle over shared bytes — it allocates a fresh buffer
(the clone's handle addresses a different allocation and the store has grown)
holding a copy of the bytes. -/
theorem clone_copies_bytes_for_vec :
    ¬ ((OwnedArchive.cloneStore VecU8.cloneOp ⟨[serializeStub ⟨4, 5⟩]⟩
          (⟨⟨0⟩⟩ : OwnedArchive ArchiveStub VecU8)).1 =
            ⟨[serializeStub ⟨4, 5⟩]⟩ ∧
        (OwnedArchive.cloneStore VecU8.cloneOp ⟨[serializeStub ⟨4, 5⟩]⟩
          (⟨⟨0⟩⟩ : OwnedArchive ArchiveStub VecU8)).2.container.addr = 0) ∧
    (OwnedArchive.cloneStore VecU8.cloneOp ⟨[serializeStub ⟨4, 5⟩]⟩
      (⟨⟨0⟩⟩ : OwnedArchive ArchiveStub VecU8)).2.container.addr = 1 ∧
    Store.readBuf
      (OwnedArchive.cloneStore VecU8.cloneOp ⟨[serializeStub ⟨4, 5⟩]⟩
        (⟨⟨0⟩⟩ : OwnedArchive ArchiveStub VecU8)).1 1 =
      serializeStub ⟨4, 5⟩ := by
  decide

/-- C7 as amended: cloning is available whenever the container type is
cloneable; it clones the container (one container-clone call, no validator
call, no byte access) and the clone's read view equals the original's whenever
the container's clone preserves its bytes; for reference-counted containers
the clone duplicates the handle and shares the allocation, while for `Vec<u8>`
it copies the bytes into a fresh allocation. -/
theorem clone_delegates_to_container_clone {A C Err : Type} [StableBytes C]
    (k : Codec A Err) (dup : C → C) (oa : OwnedArchive A C)
    (hdup : StableBytes.bytes (dup oa.container) =
      StableBytes.bytes oa.container) :
    OwnedArchive.cloneTraced dup oa =
      (⟨dup oa.container⟩, [Event.cloneCall]) ∧
    (OwnedArchive.cloneTraced dup oa).2.count Event.checkCall = 0 ∧
    OwnedArchive.deref k (OwnedArchive.cloneWith dup oa) =
      OwnedArchive.deref k oa ∧
    (∀ (s : Store) (r : RcBytes), RcBytes.cloneOp s r = (s, r)) ∧
    (∀ (s : Store) (v : VecU8),
      Store.readBuf (VecU8.cloneOp s v).1 (VecU8.cloneOp s v).2.addr =
        Store.readBuf s v.addr ∧
      (v.addr < s.bufs.length → (VecU8.cloneOp s v).2.addr ≠ v.addr)) := by
  refine ⟨rfl, rfl, ?_, ?_, ?_⟩
  · simp [OwnedArchive.deref, OwnedArchive.cloneWith, hdup]
  · intro s r
    rfl
  · intro s v
    refine ⟨?_, ?_⟩
    · show (s.bufs ++ [s.readBuf v.addr]).getD s.bufs.length [] =
        s.readBuf v.addr
      rw [List.getD_eq_getElem?_getD, List.getElem?_append_right le_rfl]
      simp
    · intro hlt
      show s.bufs.length ≠ v.addr
      omega

/-- Witness for the amended C7 at the example wrapper with the identity
container clone. -/
theorem clone_delegates_to_container_clone_witness :
    OwnedArchive.deref stubCodec
        (OwnedArchive.cloneWith id
          (⟨serializeStub ⟨4, 5⟩⟩ : OwnedArchive ArchiveStub (List Nat))) =
      OwnedArchive.deref stubCodec
        (⟨serializeStub ⟨4, 5⟩⟩ : OwnedArchive ArchiveStub (List Nat)) ∧
    (OwnedArchive.cloneTraced id
      (⟨serializeStub ⟨4, 5⟩⟩ :
        OwnedArchive ArchiveStub (List Nat))).2.count Event.checkCall = 0 := by
  have h := clone_delegates_to_container_clone stubCodec id
    (⟨serializeStub ⟨4, 5⟩⟩ : OwnedArchive ArchiveStub (List Nat)) rfl
  exact ⟨h.2.2.1, h.2.1⟩

/-- C8: the mmap entry points wrap the mapping in the dedicated newtype and
delegate to `new`, and each succeeds exactly when validation of the mapped
bytes succeeds.  (That raw mappings cannot go through the generic `new` is
Rust visibility: the newtypes are private and the raw mapping types have no
`StableBytes` impl, mirrored here by giving only the newtypes instances.) -/
theorem from_mmap_delegates_and_validates {A Err : Type} (k : Codec A Err)
    (m : Mmap) (m2 : MmapMut) :
    OwnedArchive.fromMmap k m = OwnedArchive.new k (ContractMmap.mk m) ∧
    OwnedArchive.fromMmapMut k m2 =
      OwnedArchive.new k (ContractMmapMut.mk m2) ∧
    ((∃ oa, OwnedArchive.fromMmap k m = Except.ok oa) ↔
      ∃ a, k.check m.data = Except.ok a) ∧
    ((∃ oa, OwnedArchive.fromMmapMut k m2 = Except.ok oa) ↔
      ∃ a, k.check m2.data = Except.ok a) := by
  refine ⟨rfl, rfl, ?_, ?_⟩
  · constructor
    · rintro ⟨oa, hoa⟩
      obtain ⟨-, a, ha⟩ := new_ok_elim hoa
      exact ⟨a, ha⟩
    · rintro ⟨a, ha⟩
      refine ⟨⟨⟨m⟩⟩, ?_⟩
      unfold OwnedArchive.fromMmap OwnedArchive.new
      rw [show StableBytes.bytes (ContractMmap.mk m) = m.data from rfl, ha]
  · constructor
    · rintro ⟨oa, hoa⟩
      obtain ⟨-, a, ha⟩ := new_ok_elim hoa
      exact ⟨a, ha⟩
    · rintro ⟨a, ha⟩
      refine ⟨⟨⟨m2⟩⟩, ?_⟩
      unfold OwnedArchive.fromMmapMut OwnedArchive.new
      rw [show StableBytes.bytes (ContractMmapMut.mk m2) = m2.data from rfl,
        ha]

/-- Witness for C8: delegation at a concrete mapping holding the example
record's bytes. -/
theorem from_mmap_delegates_and_validates_witness :
    OwnedArchive.fromMmap stubCodec ⟨serializeStub ⟨4, 5⟩⟩ =
      OwnedArchive.new stubCodec (ContractMmap.mk ⟨serializeStub ⟨4, 5⟩⟩) :=
  (from_mmap_delegates_and_validates stubCodec ⟨serializeStub ⟨4, 5⟩⟩
    ⟨serializeStub ⟨4, 5⟩⟩).1

/-- C9: construction is a pure function of the container's bytes — two
containers (even of different types) holding equal bytes give the same
outcome: identical validation errors on failure, and on success wrappers over
the same bytes. -/
theorem new_deterministic_on_bytes {A C D Err : Type} [StableBytes C]
    [StableBytes D] (k : Codec A Err) (c : C) (d : D)
    (hb : StableBytes.bytes c = StableBytes.bytes d) :
    Except.map (fun _ => ()) (OwnedArchive.new k c) =
      Except.map (fun _ => ()) (OwnedArchive.new k d) ∧
    ∀ (oa : OwnedArchive A C) (ob : OwnedArchive A D),
      OwnedArchive.new k c = Except.ok oa →
      OwnedArchive.new k d = Except.ok ob →
      StableBytes.bytes oa.container = StableBytes.bytes ob.container := by
  constructor
  · unfold OwnedArchive.new
    rw [hb]
    cases k.check (StableBytes.bytes d) <;> rfl
  · intro oa ob hoa hob
    obtain ⟨rfl, -⟩ := new_ok_elim hoa
    obtain ⟨rfl, -⟩ := new_ok_elim hob
    exact hb

/-- Witness for C9: a `Vec<u8>` container and an mmap container holding the
same bytes construct with the same outcome. -/
theorem new_deterministic_on_bytes_witness :
    Except.map (fun _ => ())
        (OwnedArchive.new stubCodec (serializeStub ⟨4, 5⟩)) =
      Except.map (fun _ => ())
        (OwnedArchive.new stubCodec
          (ContractMmap.mk ⟨serializeStub ⟨4, 5⟩⟩)) :=
  (new_deterministic_on_bytes stubCodec (serializeStub ⟨4, 5⟩)
    (ContractMmap.mk ⟨serializeStub ⟨4, 5⟩⟩) rfl).1

/-- C10: a successful `new` stores the supplied container unchanged — the
wrapper's bytes, and hence its dereferenced view, are exactly the bytes the
container held at the call. -/
theorem new_preserves_container_bytes {A C Err : Type} [StableBytes C]
    (k : Codec A Err) (c : C) (oa : OwnedArchive A C)
    (hnew : OwnedArchive.new k c = Except.ok oa) :
    oa.container = c ∧
    StableBytes.bytes oa.container = StableBytes.bytes c ∧
    OwnedArchive.deref k oa = k.read (StableBytes.bytes c) := by
  obtain ⟨rfl, -⟩ := new_ok_elim hnew
  exact ⟨rfl, rfl, rfl⟩

/-- Witness for C10 at the example record's serialized buffer. -/
theorem new_preserves_container_bytes_witness :
    (⟨serializeStub ⟨4, 5⟩⟩ :
        OwnedArchive ArchiveStub (List Nat)).container = serializeStub ⟨4, 5⟩ ∧
    StableBytes.bytes
        ((⟨serializeStub ⟨4, 5⟩⟩ :
          OwnedArchive ArchiveStub (List Nat)).container) =
      StableBytes.bytes (serializeStub ⟨4, 5⟩) ∧
    OwnedArchive.deref stubCodec
        (⟨serializeStub ⟨4, 5⟩⟩ : OwnedArchive ArchiveStub (List Nat)) =
      stubCodec.read (StableBytes.bytes (serializeStub ⟨4, 5⟩)) :=
  new_preserves_container_bytes stubCodec (serializeStub ⟨4, 5⟩)
    ⟨serializeStub ⟨4, 5⟩⟩ rfl
